import Mathlib

/-!
# Hushgram backend: shallow embedding and verification

This file embeds the Convex backend functions of the Hushgram chat
application (`_deleteUserAndData`, `logoutUser`, `cleanupOfflineUsers`,
`createUser`, `getCurrentUser`, `getOnlineUsers`, `updateOnlineStatus`)
as pure Lean functions over an explicit database state, and proves the
specified properties of the cascading user-deletion workflow, the
presence windows and user creation.

Modelling conventions:
* A Convex document id is a `Nat`; every table is a `List` of documents
  kept in insertion order (the order an index scan returns them).
* `ctx.db.delete` on the store is modelled with delete-if-present
  semantics, as the specification fixes at the boundary of the external
  store ("a delete of an already-absent row must not fail the workflow";
  "a missing row is not an error (delete-if-present semantics)").
* Timestamps (`Date.now()`) are integer milliseconds passed in
  explicitly as a `now` argument.
* The `Promise.all` fan-outs of the source dispatch independent per-row
  operations; they are embedded as left folds in list order.
* A thrown error aborts the Convex mutation without writing; `createUser`
  therefore returns the error outcome paired with the (unchanged)
  database state.
-/

namespace Hushgram

/-- A row of the `users` table: `_id`, `username`, `sessionId`,
`isOnline`, `lastSeen`. -/
structure User where
  id : Nat
  username : String
  sessionId : String
  isOnline : Bool
  lastSeen : Int
  deriving Repr, DecidableEq

/-- A row of the `messages` table. Exactly one of `recipientId` /
`groupId` is set in well-formed data (private vs group message); the
deletion workflow only inspects `senderId`. -/
structure Message where
  id : Nat
  senderId : Nat
  recipientId : Option Nat
  groupId : Option Nat
  content : String
  seen : Bool
  deriving Repr, DecidableEq

/-- A row of the `groupMembers` table. -/
structure GroupMember where
  id : Nat
  userId : Nat
  groupId : Nat
  deriving Repr, DecidableEq

/-- A row of the `groups` table; `memberCount` is the denormalized
member counter maintained by the deletion workflow. -/
structure Group where
  id : Nat
  name : String
  memberCount : Int
  deriving Repr, DecidableEq

/-- A row of the `activeChats` table. -/
structure ActiveChat where
  id : Nat
  userId : Nat
  chatKey : String
  deriving Repr, DecidableEq

/-- A row of the `typingIndicators` table. -/
structure TypingIndicator where
  id : Nat
  userId : Nat
  chatId : String
  isTyping : Bool
  deriving Repr, DecidableEq

/-- The database state: the six logical tables the backend touches. -/
@[ext] structure DB where
  users : List User
  messages : List Message
  groupMembers : List GroupMember
  groups : List Group
  activeChats : List ActiveChat
  typingIndicators : List TypingIndicator
  deriving Repr, DecidableEq

/-- The call `deleteEach idOf docs l` deletes, from table `l`, the document id of
each collected document in `docs` (the `Promise.all(docs.map(d =>
ctx.db.delete(d._id)))` pattern), with delete-if-present semantics. -/
def deleteEach {α : Type} (idOf : α → Nat) (docs : List α) (l : List α) : List α :=
  docs.foldl (fun acc d => acc.filter (fun x => idOf x != idOf d)) l

/-- One iteration of the membership-cleanup fan-out of
`_deleteUserAndData`: fetch the membership's group, patch its
`memberCount` to `Math.max(0, group.memberCount - 1)` when the group
still exists, then delete the membership row. -/
def processMembership (db : DB) (mem : GroupMember) : DB :=
  match db.groups.find? (fun g => g.id == mem.groupId) with
  | some group =>
      { db with
        groups := db.groups.map (fun g2 =>
          if g2.id == group.id then
            { g2 with memberCount := max 0 (group.memberCount - 1) }
          else g2),
        groupMembers := db.groupMembers.filter (fun m => m.id != mem.id) }
  | none =>
      { db with groupMembers := db.groupMembers.filter (fun m => m.id != mem.id) }

/-- The action of one membership-cleanup iteration on the `groups`
table alone: `processMembership` restricted to its group patch. -/
def stepGroups (gs : List Group) (mem : GroupMember) : List Group :=
  match gs.find? (fun g => g.id == mem.groupId) with
  | some group =>
      gs.map (fun g2 =>
        if g2.id == group.id then
          { g2 with memberCount := max 0 (group.memberCount - 1) }
        else g2)
  | none => gs

/-- Pointwise form of the group patch: decrement (floored at 0) exactly
the rows whose id is `gid`, using each row's own counter. -/
def patchIf (gid : Nat) (g : Group) : Group :=
  if g.id == gid then { g with memberCount := max 0 (g.memberCount - 1) } else g

/-- Apply `k` successive floored decrements to a counter. -/
def decCount (c : Int) : Nat → Int
  | 0 => c
  | k + 1 => decCount (max 0 (c - 1)) k

/-- Steps 1–4 of `_deleteUserAndData`: delete all messages sent by the
user, all their group memberships (decrementing each owning group's
counter), their active chats and their typing indicators. The user
record itself is untouched here. -/
def purgeOwnedData (userId : Nat) (db : DB) : DB :=
  -- 1. find and delete all messages sent by the user
  let messagesToDelete := db.messages.filter (fun m => m.senderId == userId)
  let db1 := { db with messages := deleteEach Message.id messagesToDelete db.messages }
  -- 2. find and delete all group memberships, decrementing counts
  let memberships := db1.groupMembers.filter (fun m => m.userId == userId)
  let db2 := memberships.foldl processMembership db1
  -- 3. delete the user's active chats
  let activeChats := db2.activeChats.filter (fun c => c.userId == userId)
  let db3 := { db2 with activeChats := deleteEach ActiveChat.id activeChats db2.activeChats }
  -- 4. delete the user's typing indicators (field-equality scan)
  let typingIndicators := db3.typingIndicators.filter (fun t => t.userId == userId)
  { db3 with typingIndicators := deleteEach TypingIndicator.id typingIndicators db3.typingIndicators }

/-- The internal mutation `_deleteUserAndData`: steps 1–4
(`purgeOwnedData`), then, finally, delete the user document itself. -/
def _deleteUserAndData (userId : Nat) (db : DB) : DB :=
  let db4 := purgeOwnedData userId db
  { db4 with users := db4.users.filter (fun u => u.id != userId) }

/-- The recency window of `getOnlineUsers`: `Date.now() - 60000`. -/
def onlineWindowMs : Int := 60000

/-- The idle threshold of `cleanupOfflineUsers`: `Date.now() - 300000`. -/
def idleThresholdMs : Int := 300000

/-- The projection `getOnlineUsers` returns for each user. -/
structure OnlineUserInfo where
  id : Nat
  username : String
  isOnline : Bool
  lastSeen : Int
  deriving Repr, DecidableEq

/-- The query `getOnlineUsers`: users whose stored `isOnline` flag is
true and whose `lastSeen` is within the last 60 seconds, projected to
the fields the UI needs. -/
def getOnlineUsers (db : DB) (now : Int) : List OnlineUserInfo :=
  let cutoffTime := now - onlineWindowMs
  let users := (db.users.filter (fun u => u.isOnline)).filter
    (fun u => cutoffTime < u.lastSeen)
  users.map (fun u =>
    { id := u.id, username := u.username, isOnline := u.isOnline, lastSeen := u.lastSeen })

/-- The internal mutation `cleanupOfflineUsers`: scan for users whose
`lastSeen` is older than 5 minutes and schedule `_deleteUserAndData`
for each; the returned list is the ids handed to the scheduler. -/
def cleanupOfflineUsers (db : DB) (now : Int) : List Nat :=
  let cutoffTime := now - idleThresholdMs
  let offlineUsers := db.users.filter (fun u => u.lastSeen < cutoffTime)
  offlineUsers.map (fun u => u.id)

/-- The mutation `logoutUser`: enqueues `_deleteUserAndData` for the
given user (fire and forget); the returned id is the scheduled task's
payload. -/
def logoutUser (userId : Nat) : Nat := userId

/-- The error message thrown by `createUser` on a username conflict. -/
def usernameTakenError : String := "Username is already taken by an online user"

/-- The mutation `createUser`. First the username-conflict check
(first user with this username and `isOnline = true`); on conflict the
mutation throws, leaving the state unchanged. Otherwise, if the session
already has a user, patch its username / online flag / lastSeen and
return its id; else insert a fresh row. Returns the outcome (error or
returned user id) together with the resulting database state. -/
def createUser (username sessionId : String) (now : Int) (freshId : Nat)
    (db : DB) : Except String Nat × DB :=
  match db.users.find? (fun u => u.username == username && u.isOnline) with
  | some _ => (Except.error usernameTakenError, db)
  | none =>
    match db.users.find? (fun u => u.sessionId == sessionId) with
    | some existingSession =>
        (Except.ok existingSession.id,
         { db with users := db.users.map (fun u =>
             if u.id == existingSession.id then
               { u with username := username, isOnline := true, lastSeen := now }
             else u) })
    | none =>
        (Except.ok freshId,
         { db with users := db.users ++
             [{ id := freshId, username := username, sessionId := sessionId,
                isOnline := true, lastSeen := now }] })

/-- The query `getCurrentUser`: point lookup by session id. -/
def getCurrentUser (db : DB) (sessionId : String) : Option User :=
  db.users.find? (fun u => u.sessionId == sessionId)

/-- The mutation `updateOnlineStatus`: patch the user's online flag and
refresh `lastSeen`. -/
def updateOnlineStatus (userId : Nat) (isOnline : Bool) (now : Int) (db : DB) : DB :=
  { db with users := db.users.map (fun u =>
      if u.id == userId then { u with isOnline := isOnline, lastSeen := now } else u) }

/-- Number of membership rows referencing group `gid`. -/
def membershipCount (db : DB) (gid : Nat) : Nat :=
  (db.groupMembers.filter (fun m => m.groupId == gid)).length

/-- The lookup `ctx.db.get` on the users table: resolve a user by id. -/
def getUser (db : DB) (userId : Nat) : Option User :=
  db.users.find? (fun u => u.id == userId)

/-- A concrete database with accurate member counters, used to witness
the deletion-workflow theorems: user 1 (online) and user 2 (offline),
three messages, group 10 with both users and group 11 with user 1
alone, an active chat and a typing indicator for user 1. -/
def sampleDB : DB :=
  { users := [⟨1, "alice", "s1", true, 1000⟩, ⟨2, "bob", "s2", false, 500⟩],
    messages := [⟨100, 1, some 2, none, "hi", false⟩,
                 ⟨101, 2, some 1, none, "yo", true⟩,
                 ⟨102, 1, none, some 10, "grp", false⟩],
    groupMembers := [⟨200, 1, 10⟩, ⟨201, 2, 10⟩, ⟨202, 1, 11⟩],
    groups := [⟨10, "g10", 2⟩, ⟨11, "g11", 1⟩],
    activeChats := [⟨300, 1, "c"⟩, ⟨301, 2, "c"⟩],
    typingIndicators := [⟨400, 1, "c", true⟩] }

/-- A concrete database where user 3's only membership row references a
group id (99) that no longer exists. -/
def orphanDB : DB :=
  { users := [⟨3, "carol", "s3", true, 1000⟩],
    messages := [],
    groupMembers := [⟨210, 3, 99⟩, ⟨211, 4, 10⟩],
    groups := [⟨10, "g10", 1⟩],
    activeChats := [],
    typingIndicators := [] }

/-- A concrete database for the presence-window witnesses: user 5 has
`isOnline = true` but `lastSeen` 90 seconds before the query time
`100000`. -/
def presenceDB : DB :=
  { users := [⟨5, "dave", "s5", true, 10000⟩],
    messages := [], groupMembers := [], groups := [],
    activeChats := [], typingIndicators := [] }

/-- A concrete database for the user-creation theorems: "alice" is held
by an online user with session `s1`; session `s2` belongs to the
offline user "bob". -/
def authDB : DB :=
  { users := [⟨1, "alice", "s1", true, 1000⟩, ⟨2, "bob", "s2", false, 500⟩],
    messages := [], groupMembers := [], groups := [],
    activeChats := [], typingIndicators := [] }

/-- A concrete database where the username "alice" is held only by an
offline user, and no user has session `s9`. -/
def offlineAliceDB : DB :=
  { users := [⟨4, "alice", "s4", false, 100⟩],
    messages := [], groupMembers := [], groups := [],
    activeChats := [], typingIndicators := [] }

/-! ## Generic lemmas about the collect-then-delete pattern -/

/-- Deleting each collected document is the filter keeping rows whose id is that of no
collected document. -/
theorem deleteEach_eq_filter {α : Type} (idOf : α → Nat) (docs l : List α) :
    deleteEach idOf docs l =
      l.filter (fun x => docs.all (fun d => idOf x != idOf d)) := by
  induction docs generalizing l with
  | nil => simp [deleteEach]
  | cons d ds ih =>
      simp only [deleteEach, List.foldl_cons] at *
      rw [ih, List.filter_filter]
      refine List.filter_congr fun x _ => ?_
      simp [List.all_cons, Bool.and_comm]

/-- Membership characterization of `deleteEach`. -/
theorem mem_deleteEach {α : Type} {idOf : α → Nat} {docs l : List α} {x : α} :
    x ∈ deleteEach idOf docs l ↔ x ∈ l ∧ ∀ d ∈ docs, idOf x ≠ idOf d := by
  simp [deleteEach_eq_filter, List.mem_filter, List.all_eq_true]

/-- After deleting every collected row matching `p`, no surviving row
matches `p` (no id-uniqueness needed: each matching row's own id was
collected). -/
theorem deleteEach_filter_none {α : Type} (idOf : α → Nat) (p : α → Bool)
    (l : List α) : ∀ x ∈ deleteEach idOf (l.filter p) l, p x = false := by
  intro x hx
  rcases mem_deleteEach.mp hx with ⟨hxl, hids⟩
  by_contra hpx
  exact hids x (List.mem_filter.mpr ⟨hxl, Bool.of_not_eq_false hpx⟩) rfl

/-- When row ids are pairwise distinct, collect-then-delete is exactly
the filter dropping the matching rows. -/
theorem deleteEach_eq_filter_not {α : Type} (idOf : α → Nat) (p : α → Bool)
    (l : List α) (hnd : (l.map idOf).Nodup) :
    deleteEach idOf (l.filter p) l = l.filter (fun x => !p x) := by
  rw [deleteEach_eq_filter]
  refine List.filter_congr fun x hx => ?_
  rw [Bool.eq_iff_iff]
  simp only [List.all_eq_true, List.mem_filter, bne_iff_ne, Bool.not_eq_true',
    and_imp]
  constructor
  · intro h
    by_contra hpx
    exact h x hx (Bool.of_not_eq_false hpx) rfl
  · intro hpx d hd hpd hid
    exact absurd ((List.inj_on_of_nodup_map hnd) hx hd hid ▸ hpx) (by simp [hpd])

/-- A `Nodup` list whose only `p`-matching element is `a` filters to
`[a]`. -/
theorem filter_eq_singleton_of_unique {α : Type} {p : α → Bool} {l : List α}
    {a : α} (hnd : l.Nodup) (ha : a ∈ l) (hpa : p a = true)
    (huniq : ∀ x ∈ l, p x = true → x = a) : l.filter p = [a] := by
  induction l with
  | nil => cases ha
  | cons b bs ih =>
      rcases List.nodup_cons.mp hnd with ⟨hbn, hbs⟩
      rcases List.mem_cons.mp ha with hab | hma
      · subst hab
        rw [List.filter_cons_of_pos hpa]
        have : bs.filter p = [] := by
          rw [List.filter_eq_nil_iff]
          intro x hx hpx
          exact hbn ((huniq x (List.mem_cons_of_mem _ hx) hpx) ▸ hx)
        rw [this]
      · have hpb : p b = false := by
          by_contra hpb
          have := huniq b (List.mem_cons_self b bs) (Bool.of_not_eq_false hpb)
          exact hbn (this ▸ hma)
        rw [List.filter_cons_of_neg (by simp [hpb])]
        exact ih hbs hma fun x hx hpx => huniq x (List.mem_cons_of_mem _ hx) hpx

/-! ## Lemmas about the floored decrement -/

theorem decCount_zero (c : Int) : decCount c 0 = c := rfl

theorem decCount_succ (c : Int) (k : Nat) :
    decCount c (k + 1) = decCount (max 0 (c - 1)) k := rfl

theorem decCount_one (c : Int) : decCount c 1 = max 0 (c - 1) := rfl

/-- Without hitting the floor, `k` decrements subtract `k`. -/
theorem decCount_of_le (k : Nat) (c : Int) (h : (k : Int) ≤ c) :
    decCount c k = c - k := by
  induction k generalizing c with
  | zero => simp [decCount]
  | succ n ih =>
      rw [decCount_succ]
      have h1 : (1 : Int) ≤ c := le_trans (by exact_mod_cast Nat.one_le_iff_ne_zero.mpr (Nat.succ_ne_zero n)) h
      rw [max_eq_right (by omega)]
      rw [ih (c - 1) (by push_cast at h ⊢; omega)]
      push_cast
      ring

theorem decCount_nonneg_of_nonneg (c : Int) (k : Nat) (h : 0 ≤ c) :
    0 ≤ decCount c k := by
  induction k generalizing c with
  | zero => exact h
  | succ n ih => exact decCount_succ c n ▸ ih _ (le_max_left 0 (c - 1))

/-- At least one floored decrement leaves the counter nonnegative. -/
theorem decCount_nonneg (c : Int) (k : Nat) (h : 0 < k) :
    0 ≤ decCount c k := by
  obtain ⟨n, rfl⟩ := Nat.exists_eq_add_of_lt h
  rw [Nat.zero_add, decCount_succ]
  exact decCount_nonneg_of_nonneg _ _ (le_max_left 0 (c - 1))

/-! ## Characterization of the membership-cleanup fold -/

/-- The pointwise patch never changes a group's id. -/
theorem patchIf_id (gid : Nat) (g : Group) : (patchIf gid g).id = g.id := by
  unfold patchIf; split <;> rfl

/-- The pointwise patch keeps the id list of a group table. -/
theorem map_id_map_patchIf (gid : Nat) (gs : List Group) :
    (gs.map (patchIf gid)).map Group.id = gs.map Group.id := by
  rw [List.map_map]
  exact List.map_congr_left fun g _ => patchIf_id gid g

/-- With pairwise-distinct group ids, the get-then-patch of one
membership acts pointwise: decrement exactly the row whose id is the
membership's `groupId`. -/
theorem stepGroups_eq_map (gs : List Group) (mem : GroupMember)
    (hnd : (gs.map Group.id).Nodup) :
    stepGroups gs mem = gs.map (patchIf mem.groupId) := by
  unfold stepGroups
  cases hfind : gs.find? (fun g => g.id == mem.groupId) with
  | none =>
      have hno := List.find?_eq_none.mp hfind
      rw [show gs.map (patchIf mem.groupId) = gs.map id from
        List.map_congr_left fun g hg => by simp [patchIf, hno g hg], List.map_id]
  | some group =>
      have hgm : group ∈ gs := List.mem_of_find?_eq_some hfind
      have hgid : group.id = mem.groupId := by
        simpa using List.find?_some hfind
      refine List.map_congr_left fun g2 hg2 => ?_
      unfold patchIf
      rw [hgid]
      split
      · next hid =>
          have hid2 : g2.id = mem.groupId := by simpa using hid
          have : g2 = group :=
            List.inj_on_of_nodup_map hnd hg2 hgm (hid2.trans hgid.symm)
          rw [this]
      · rfl

/-- Folding the group patches over a membership list decrements each
group once per membership referencing it (floored each time). -/
theorem foldl_stepGroups_eq (ms : List GroupMember) (gs : List Group)
    (hnd : (gs.map Group.id).Nodup) :
    ms.foldl stepGroups gs = gs.map (fun g =>
      { g with memberCount :=
          decCount g.memberCount (ms.countP (fun m => m.groupId == g.id)) }) := by
  induction ms generalizing gs with
  | nil =>
      simp only [List.foldl_nil, List.countP_nil, decCount_zero]
      rw [show gs.map (fun g => { g with memberCount := g.memberCount }) = gs.map id from
        List.map_congr_left fun g _ => rfl, List.map_id]
  | cons m ms ih =>
      rw [List.foldl_cons, stepGroups_eq_map gs m hnd,
        ih _ (by rw [map_id_map_patchIf]; exact hnd), List.map_map]
      refine List.map_congr_left fun g _ => ?_
      simp only [Function.comp_apply, patchIf]
      split
      · next hid =>
          have hid' : (m.groupId == g.id) = true := by
            simp only [beq_iff_eq] at hid ⊢
            exact hid.symm
          have hc : List.countP (fun m2 : GroupMember => m2.groupId == g.id) (m :: ms)
              = List.countP (fun m2 : GroupMember => m2.groupId == g.id) ms + 1 := by
            simp [List.countP_cons, hid']
          rw [hc, decCount_succ]
      · next hid =>
          have hid' : (m.groupId == g.id) = false := by
            simp only [beq_iff_eq] at hid
            simp only [beq_eq_false_iff_ne, ne_eq]
            exact fun h => hid h.symm
          have hc : List.countP (fun m2 : GroupMember => m2.groupId == g.id) (m :: ms)
              = List.countP (fun m2 : GroupMember => m2.groupId == g.id) ms := by
            simp [List.countP_cons, hid']
          rw [hc]

/-- Each membership-cleanup iteration splits into its group-table and
membership-table actions; other tables are untouched. -/
theorem processMembership_eq (db : DB) (mem : GroupMember) :
    processMembership db mem =
      { db with groups := stepGroups db.groups mem,
                groupMembers := db.groupMembers.filter (fun m => m.id != mem.id) } := by
  unfold processMembership stepGroups
  cases hfind : db.groups.find? (fun g => g.id == mem.groupId) <;> rfl

/-- The membership-cleanup fold splits componentwise. -/
theorem foldl_processMembership_eq (ms : List GroupMember) (db : DB) :
    ms.foldl processMembership db =
      { db with groups := ms.foldl stepGroups db.groups,
                groupMembers := deleteEach GroupMember.id ms db.groupMembers } := by
  induction ms generalizing db with
  | nil => simp [deleteEach]
  | cons m ms ih =>
      rw [List.foldl_cons, processMembership_eq, ih]
      rfl

/-! ## Per-table effect of the deletion workflow -/

/-- Steps 1–4 as one record: the messages/memberships/chats/indicators
of the user are purged via collect-then-delete, group counters are
patched, and the `users` table is untouched. -/
theorem purgeOwnedData_eq (u : Nat) (db : DB) :
    purgeOwnedData u db =
      { users := db.users,
        messages := deleteEach Message.id
          (db.messages.filter (fun m => m.senderId == u)) db.messages,
        groupMembers := deleteEach GroupMember.id
          (db.groupMembers.filter (fun m => m.userId == u)) db.groupMembers,
        groups := (db.groupMembers.filter (fun m => m.userId == u)).foldl
          stepGroups db.groups,
        activeChats := deleteEach ActiveChat.id
          (db.activeChats.filter (fun c => c.userId == u)) db.activeChats,
        typingIndicators := deleteEach TypingIndicator.id
          (db.typingIndicators.filter (fun t => t.userId == u)) db.typingIndicators } := by
  unfold purgeOwnedData
  simp only [foldl_processMembership_eq]

theorem purge_users (u : Nat) (db : DB) : (purgeOwnedData u db).users = db.users := by
  rw [purgeOwnedData_eq]

theorem purge_messages (u : Nat) (db : DB) :
    (purgeOwnedData u db).messages = deleteEach Message.id
      (db.messages.filter (fun m => m.senderId == u)) db.messages := by
  rw [purgeOwnedData_eq]

theorem purge_groupMembers (u : Nat) (db : DB) :
    (purgeOwnedData u db).groupMembers = deleteEach GroupMember.id
      (db.groupMembers.filter (fun m => m.userId == u)) db.groupMembers := by
  rw [purgeOwnedData_eq]

theorem purge_groups (u : Nat) (db : DB) :
    (purgeOwnedData u db).groups =
      (db.groupMembers.filter (fun m => m.userId == u)).foldl stepGroups db.groups := by
  rw [purgeOwnedData_eq]

theorem purge_activeChats (u : Nat) (db : DB) :
    (purgeOwnedData u db).activeChats = deleteEach ActiveChat.id
      (db.activeChats.filter (fun c => c.userId == u)) db.activeChats := by
  rw [purgeOwnedData_eq]

theorem purge_typingIndicators (u : Nat) (db : DB) :
    (purgeOwnedData u db).typingIndicators = deleteEach TypingIndicator.id
      (db.typingIndicators.filter (fun t => t.userId == u)) db.typingIndicators := by
  rw [purgeOwnedData_eq]

theorem deleteUserAndData_users (u : Nat) (db : DB) :
    (_deleteUserAndData u db).users = db.users.filter (fun x => x.id != u) := by
  unfold _deleteUserAndData
  rw [show ({ purgeOwnedData u db with
      users := (purgeOwnedData u db).users.filter (fun x => x.id != u) } : DB).users
    = (purgeOwnedData u db).users.filter (fun x => x.id != u) from rfl, purge_users]

theorem deleteUserAndData_messages (u : Nat) (db : DB) :
    (_deleteUserAndData u db).messages = (purgeOwnedData u db).messages := rfl

theorem deleteUserAndData_groupMembers (u : Nat) (db : DB) :
    (_deleteUserAndData u db).groupMembers = (purgeOwnedData u db).groupMembers := rfl

theorem deleteUserAndData_groups (u : Nat) (db : DB) :
    (_deleteUserAndData u db).groups = (purgeOwnedData u db).groups := rfl

theorem deleteUserAndData_activeChats (u : Nat) (db : DB) :
    (_deleteUserAndData u db).activeChats = (purgeOwnedData u db).activeChats := rfl

theorem deleteUserAndData_typingIndicators (u : Nat) (db : DB) :
    (_deleteUserAndData u db).typingIndicators = (purgeOwnedData u db).typingIndicators := rfl

/-- No message sent by the deleted user survives the workflow. -/
theorem no_sender_messages_left (u : Nat) (db : DB) :
    ∀ m ∈ (_deleteUserAndData u db).messages, m.senderId ≠ u := by
  intro m hm
  rw [deleteUserAndData_messages, purge_messages] at hm
  have := deleteEach_filter_none Message.id (fun m => m.senderId == u) db.messages m hm
  simpa using this

/-- No membership row of the deleted user survives the workflow. -/
theorem no_memberships_left (u : Nat) (db : DB) :
    ∀ gm ∈ (_deleteUserAndData u db).groupMembers, gm.userId ≠ u := by
  intro gm hgm
  rw [deleteUserAndData_groupMembers, purge_groupMembers] at hgm
  have := deleteEach_filter_none GroupMember.id (fun m => m.userId == u)
    db.groupMembers gm hgm
  simpa using this

/-- No active-chat row of the deleted user survives the workflow. -/
theorem no_activeChats_left (u : Nat) (db : DB) :
    ∀ c ∈ (_deleteUserAndData u db).activeChats, c.userId ≠ u := by
  intro c hc
  rw [deleteUserAndData_activeChats, purge_activeChats] at hc
  have := deleteEach_filter_none ActiveChat.id (fun c => c.userId == u)
    db.activeChats c hc
  simpa using this

/-- No typing-indicator row of the deleted user survives the workflow. -/
theorem no_typingIndicators_left (u : Nat) (db : DB) :
    ∀ t ∈ (_deleteUserAndData u db).typingIndicators, t.userId ≠ u := by
  intro t ht
  rw [deleteUserAndData_typingIndicators, purge_typingIndicators] at ht
  have := deleteEach_filter_none TypingIndicator.id (fun t => t.userId == u)
    db.typingIndicators t ht
  simpa using this

/-- The user record itself is gone after the workflow. -/
theorem no_user_left (u : Nat) (db : DB) :
    ∀ usr ∈ (_deleteUserAndData u db).users, usr.id ≠ u := by
  intro usr husr
  rw [deleteUserAndData_users] at husr
  have := (List.mem_filter.mp husr).2
  simpa using this

/-- Floored decrements never increase a nonnegative counter. -/
theorem decCount_le_self (c : Int) (k : Nat) (h : 0 ≤ c) : decCount c k ≤ c := by
  induction k generalizing c with
  | zero => exact le_refl c
  | succ n ih =>
      rw [decCount_succ]
      exact le_trans (ih _ (le_max_left 0 (c - 1))) (by omega)

/-- At least one floored decrement strictly shrinks a positive
counter. -/
theorem decCount_lt (c : Int) (k : Nat) (hc : 0 < c) (hk : 0 < k) :
    decCount c k < c := by
  obtain ⟨n, rfl⟩ := Nat.exists_eq_add_of_lt hk
  rw [Nat.zero_add, decCount_succ]
  have h1 : max 0 (c - 1) = c - 1 := by omega
  rw [h1]
  exact lt_of_le_of_lt (decCount_le_self (c - 1) n (by omega)) (by omega)

/-- Splitting a count along a second predicate. -/
theorem countP_and_split {α : Type} (p q : α → Bool) (l : List α) :
    l.countP (fun a => q a && p a) + l.countP (fun a => q a && !p a)
      = l.countP q := by
  induction l with
  | nil => rfl
  | cons a l ih =>
      simp only [List.countP_cons]
      cases hq : q a <;> cases hp : p a <;> simp [hq, hp] <;> omega

/-! ## Claim theorems -/

/-- C1: `_deleteUserAndData` deletes every message sent by the user,
every membership row of the user (decrementing each owning group's
`memberCount`), every active-chat row and every typing-indicator row of
the user, and deletes the user record itself last, so that until that
final step the user is still resolvable by id. -/
theorem deleteUserAndData_removes_all_user_data (db : DB) (u : Nat)
    (hgrp : (db.groups.map Group.id).Nodup) :
    (∀ m ∈ (_deleteUserAndData u db).messages, m.senderId ≠ u) ∧
    (∀ gm ∈ (_deleteUserAndData u db).groupMembers, gm.userId ≠ u) ∧
    (∀ c ∈ (_deleteUserAndData u db).activeChats, c.userId ≠ u) ∧
    (∀ t ∈ (_deleteUserAndData u db).typingIndicators, t.userId ≠ u) ∧
    getUser (_deleteUserAndData u db) u = none ∧
    getUser (purgeOwnedData u db) u = getUser db u ∧
    (∀ g ∈ db.groups, 0 < g.memberCount →
      (∃ gm ∈ db.groupMembers, gm.userId = u ∧ gm.groupId = g.id) →
      ∃ g' ∈ (_deleteUserAndData u db).groups, g'.id = g.id ∧
        g'.memberCount < g.memberCount) := by
  refine ⟨no_sender_messages_left u db, no_memberships_left u db,
    no_activeChats_left u db, no_typingIndicators_left u db, ?_, ?_, ?_⟩
  · unfold getUser
    rw [List.find?_eq_none]
    intro x hx
    simpa using no_user_left u db x hx
  · unfold getUser
    rw [purge_users]
  · intro g hg hpos ⟨gm, hgm, hgmu, hgmg⟩
    rw [deleteUserAndData_groups, purge_groups, foldl_stepGroups_eq _ _ hgrp]
    refine ⟨_, List.mem_map_of_mem _ hg, rfl, ?_⟩
    have hk : 0 < (db.groupMembers.filter (fun m => m.userId == u)).countP
        (fun m => m.groupId == g.id) := by
      rw [List.countP_pos_iff]
      exact ⟨gm, List.mem_filter.mpr ⟨hgm, by simp [hgmu]⟩, by simp [hgmg]⟩
    exact decCount_lt _ _ hpos hk

/-- Witness for C1 on `sampleDB`, deleting user 1. -/
theorem deleteUserAndData_removes_all_user_data_witness :
    (∀ m ∈ (_deleteUserAndData 1 sampleDB).messages, m.senderId ≠ 1) ∧
    (∀ gm ∈ (_deleteUserAndData 1 sampleDB).groupMembers, gm.userId ≠ 1) ∧
    (∀ c ∈ (_deleteUserAndData 1 sampleDB).activeChats, c.userId ≠ 1) ∧
    (∀ t ∈ (_deleteUserAndData 1 sampleDB).typingIndicators, t.userId ≠ 1) ∧
    getUser (_deleteUserAndData 1 sampleDB) 1 = none ∧
    getUser (purgeOwnedData 1 sampleDB) 1 = getUser sampleDB 1 ∧
    (∀ g ∈ sampleDB.groups, 0 < g.memberCount →
      (∃ gm ∈ sampleDB.groupMembers, gm.userId = 1 ∧ gm.groupId = g.id) →
      ∃ g' ∈ (_deleteUserAndData 1 sampleDB).groups, g'.id = g.id ∧
        g'.memberCount < g.memberCount) :=
  deleteUserAndData_removes_all_user_data sampleDB 1 (by decide)

/-- C2: the deletion workflow is idempotent — running it a second time
against the already-cleaned state is the identity (and the model is a
total function: deletes of already-absent rows are no-ops, as the
specification fixes for the external store). -/
theorem deleteUserAndData_idempotent (u : Nat) (db : DB) :
    _deleteUserAndData u (_deleteUserAndData u db) = _deleteUserAndData u db := by
  have hmsg : (_deleteUserAndData u db).messages.filter (fun m => m.senderId == u) = [] := by
    rw [List.filter_eq_nil_iff]
    intro m hm
    simpa using no_sender_messages_left u db m hm
  have hmem : (_deleteUserAndData u db).groupMembers.filter (fun m => m.userId == u) = [] := by
    rw [List.filter_eq_nil_iff]
    intro m hm
    simpa using no_memberships_left u db m hm
  have hac : (_deleteUserAndData u db).activeChats.filter (fun c => c.userId == u) = [] := by
    rw [List.filter_eq_nil_iff]
    intro c hc
    simpa using no_activeChats_left u db c hc
  have hti : (_deleteUserAndData u db).typingIndicators.filter (fun t => t.userId == u) = [] := by
    rw [List.filter_eq_nil_iff]
    intro t ht
    simpa using no_typingIndicators_left u db t ht
  have hpurge : purgeOwnedData u (_deleteUserAndData u db) = _deleteUserAndData u db := by
    rw [purgeOwnedData_eq, hmsg, hmem, hac, hti]
    rfl
  have husers : (_deleteUserAndData u db).users.filter (fun x => x.id != u)
      = (_deleteUserAndData u db).users := by
    rw [List.filter_eq_self]
    intro x hx
    simpa using no_user_left u db x hx
  show { purgeOwnedData u (_deleteUserAndData u db) with
      users := (purgeOwnedData u (_deleteUserAndData u db)).users.filter
        (fun x => x.id != u) } = _deleteUserAndData u db
  rw [hpurge, husers]

/-- C4: sender-only purge — every message whose sender is the deleted
user U is removed (private or group alike), while a message sent by a
different user V (for instance one addressed to U) survives the
workflow untouched. -/
theorem deleteUserAndData_sender_only (db : DB) (u v : Nat) (huv : v ≠ u)
    (hnd : (db.messages.map Message.id).Nodup) :
    (∀ m ∈ db.messages, m.senderId = u → m ∉ (_deleteUserAndData u db).messages) ∧
    (∀ m ∈ db.messages, m.senderId = v → m ∈ (_deleteUserAndData u db).messages) := by
  constructor
  · intro m _ hsender hmem
    exact no_sender_messages_left u db m hmem hsender
  · intro m hm hsender
    rw [deleteUserAndData_messages, purge_messages,
      deleteEach_eq_filter_not _ _ _ hnd, List.mem_filter]
    exact ⟨hm, by simp [hsender, huv]⟩

/-- Witness for C4 on `sampleDB` with U = 1, V = 2. -/
theorem deleteUserAndData_sender_only_witness :
    (2 : Nat) ≠ 1 ∧
    ((∀ m ∈ sampleDB.messages, m.senderId = 1 →
        m ∉ (_deleteUserAndData 1 sampleDB).messages) ∧
     (∀ m ∈ sampleDB.messages, m.senderId = 2 →
        m ∈ (_deleteUserAndData 1 sampleDB).messages)) :=
  ⟨by decide, deleteUserAndData_sender_only sampleDB 1 2 (by decide) (by decide)⟩

/-- C3: with pairwise-distinct document ids and counters that were
accurate beforehand, after `_deleteUserAndData(U)` no membership row
references U and every group's `memberCount` again equals the number of
its remaining membership rows. -/
theorem deleteUserAndData_no_orphans (db : DB) (u : Nat)
    (hmemnd : (db.groupMembers.map GroupMember.id).Nodup)
    (hgrp : (db.groups.map Group.id).Nodup)
    (hacc : ∀ g ∈ db.groups,
      g.memberCount = (membershipCount db g.id : Int)) :
    (∀ gm ∈ (_deleteUserAndData u db).groupMembers, gm.userId ≠ u) ∧
    (∀ g ∈ (_deleteUserAndData u db).groups,
      g.memberCount = (membershipCount (_deleteUserAndData u db) g.id : Int)) := by
  refine ⟨no_memberships_left u db, ?_⟩
  intro g' hg'
  rw [deleteUserAndData_groups, purge_groups, foldl_stepGroups_eq _ _ hgrp] at hg'
  rcases List.mem_map.mp hg' with ⟨g, hg, rfl⟩
  have hmembers : (_deleteUserAndData u db).groupMembers
      = db.groupMembers.filter (fun x => !(x.userId == u)) := by
    rw [deleteUserAndData_groupMembers, purge_groupMembers,
      deleteEach_eq_filter_not _ _ _ hmemnd]
  -- abbreviations for the three counts
  have hsplit := countP_and_split (fun m : GroupMember => m.userId == u)
    (fun m : GroupMember => m.groupId == g.id) db.groupMembers
  have hk : (db.groupMembers.filter (fun m => m.userId == u)).countP
        (fun m => m.groupId == g.id)
      = db.groupMembers.countP
        (fun m => m.groupId == g.id && m.userId == u) := by
    rw [List.countP_eq_length_filter, List.filter_filter,
      ← List.countP_eq_length_filter]
  have hold : g.memberCount
      = (db.groupMembers.countP (fun m => m.groupId == g.id) : Int) := by
    rw [hacc g hg]
    unfold membershipCount
    rw [List.countP_eq_length_filter]
  have hnew : (membershipCount (_deleteUserAndData u db) g.id : Int)
      = (db.groupMembers.countP
          (fun m => m.groupId == g.id && !(m.userId == u)) : Int) := by
    unfold membershipCount
    rw [hmembers, List.filter_filter, ← List.countP_eq_length_filter]
  show decCount g.memberCount
      ((db.groupMembers.filter (fun m => m.userId == u)).countP
        (fun m => m.groupId == g.id))
    = (membershipCount (_deleteUserAndData u db) g.id : Int)
  rw [hnew, hk]
  have hle : db.groupMembers.countP (fun m => m.groupId == g.id && m.userId == u)
      ≤ db.groupMembers.countP (fun m => m.groupId == g.id) := by omega
  rw [decCount_of_le _ _ (by rw [hold]; exact_mod_cast hle)]
  rw [hold]
  omega

/-- Witness for C3 on `sampleDB` (accurate counters), deleting
user 1. -/
theorem deleteUserAndData_no_orphans_witness :
    (∀ gm ∈ (_deleteUserAndData 1 sampleDB).groupMembers, gm.userId ≠ 1) ∧
    (∀ g ∈ (_deleteUserAndData 1 sampleDB).groups,
      g.memberCount = (membershipCount (_deleteUserAndData 1 sampleDB) g.id : Int)) :=
  deleteUserAndData_no_orphans sampleDB 1 (by decide) (by decide) (by decide)

/-- C5: if user U has exactly one membership row in an existing group
G, `_deleteUserAndData(U)` sets G's `memberCount` to
`max 0 (memberCount - 1)`: a decrement by exactly 1 when the counter was
positive, 0 when it was already 0, and never a negative value. -/
theorem deleteUserAndData_count_floor (db : DB) (u : Nat) (g : Group)
    (mem : GroupMember) (hg : g ∈ db.groups) (hmem : mem ∈ db.groupMembers)
    (hmu : mem.userId = u) (hmg : mem.groupId = g.id)
    (hgrp : (db.groups.map Group.id).Nodup)
    (hmemnd : (db.groupMembers.map GroupMember.id).Nodup)
    (huniq : ∀ m ∈ db.groupMembers, m.userId = u → m.groupId = g.id → m = mem) :
    ∃ g' ∈ (_deleteUserAndData u db).groups, g'.id = g.id ∧
      g'.memberCount = max 0 (g.memberCount - 1) ∧
      (0 < g.memberCount → g'.memberCount = g.memberCount - 1) ∧
      (g.memberCount = 0 → g'.memberCount = 0) ∧
      0 ≤ g'.memberCount := by
  rw [deleteUserAndData_groups, purge_groups, foldl_stepGroups_eq _ _ hgrp]
  refine ⟨_, List.mem_map_of_mem _ hg, rfl, ?_⟩
  have hsingle : db.groupMembers.filter
      (fun m => m.groupId == g.id && m.userId == u) = [mem] := by
    refine filter_eq_singleton_of_unique (List.Nodup.of_map _ hmemnd) hmem
      (by simp [hmu, hmg]) ?_
    intro x hx hpx
    simp only [Bool.and_eq_true, beq_iff_eq] at hpx
    exact huniq x hx hpx.2 hpx.1
  have hk : (db.groupMembers.filter (fun m => m.userId == u)).countP
      (fun m => m.groupId == g.id) = 1 := by
    rw [List.countP_eq_length_filter, List.filter_filter, hsingle]
    rfl
  rw [hk, decCount_one]
  refine ⟨rfl, fun h => ?_, fun h => ?_, ?_⟩
  · show max 0 (g.memberCount - 1) = g.memberCount - 1
    omega
  · show max 0 (g.memberCount - 1) = 0
    omega
  · show (0 : Int) ≤ max 0 (g.memberCount - 1)
    omega

/-- Witness for C5 on `sampleDB`: user 1's single membership in
group 10 (counter 2 → 1). -/
theorem deleteUserAndData_count_floor_witness :
    ∃ g' ∈ (_deleteUserAndData 1 sampleDB).groups, g'.id = 10 ∧
      g'.memberCount = max 0 ((2 : Int) - 1) ∧
      (0 < (2 : Int) → g'.memberCount = 2 - 1) ∧
      ((2 : Int) = 0 → g'.memberCount = 0) ∧
      0 ≤ g'.memberCount :=
  deleteUserAndData_count_floor sampleDB 1 ⟨10, "g10", 2⟩ ⟨200, 1, 10⟩
    (by decide) (by decide) (by decide) (by decide) (by decide) (by decide)
    (by decide)

/-- C6: a user whose stored `isOnline` flag is true but whose
`lastSeen` is 90 seconds old is excluded from `getOnlineUsers`
(60-second window) and is not yet selected by `cleanupOfflineUsers`
(5-minute threshold); the two windows are distinct constants. -/
theorem presence_windows (db : DB) (now : Int) (usr : User)
    (hmem : usr ∈ db.users)
    (hnd : (db.users.map User.id).Nodup)
    (hon : usr.isOnline = true)
    (hseen : usr.lastSeen = now - 90000) :
    usr.id ∉ (getOnlineUsers db now).map OnlineUserInfo.id ∧
    usr.id ∉ cleanupOfflineUsers db now ∧
    onlineWindowMs ≠ idleThresholdMs := by
  refine ⟨?_, ?_, by decide⟩
  · intro h
    rw [List.mem_map] at h
    obtain ⟨o, ho, hoid⟩ := h
    unfold getOnlineUsers at ho
    simp only [List.mem_map, List.mem_filter, decide_eq_true_eq] at ho
    obtain ⟨w, ⟨⟨hw, _⟩, hwseen⟩, rfl⟩ := ho
    have hweq : w = usr := List.inj_on_of_nodup_map hnd hw hmem (by simpa using hoid)
    subst hweq
    rw [hseen] at hwseen
    simp only [onlineWindowMs] at hwseen
    omega
  · intro h
    unfold cleanupOfflineUsers at h
    simp only [List.mem_map, List.mem_filter, decide_eq_true_eq] at h
    obtain ⟨w, ⟨hw, hws⟩, hwid⟩ := h
    have hweq : w = usr := List.inj_on_of_nodup_map hnd hw hmem hwid
    subst hweq
    rw [hseen] at hws
    simp only [idleThresholdMs] at hws
    omega

/-- Witness for C6: user 5 of `presenceDB`, online flag set, last seen
90 seconds before query time 100000. -/
theorem presence_windows_witness :
    (5 : Nat) ∉ (getOnlineUsers presenceDB 100000).map OnlineUserInfo.id ∧
    (5 : Nat) ∉ cleanupOfflineUsers presenceDB 100000 ∧
    onlineWindowMs ≠ idleThresholdMs :=
  presence_windows presenceDB 100000 ⟨5, "dave", "s5", true, 10000⟩
    (by decide) (by decide) (by decide) (by decide)

/-- On a username conflict with an online user, `createUser` throws and
the state is unchanged. -/
theorem createUser_taken_eq (db : DB) (n s : String) (now : Int) (fid : Nat)
    (h : ∃ w ∈ db.users, w.username = n ∧ w.isOnline = true) :
    createUser n s now fid db = (Except.error usernameTakenError, db) := by
  obtain ⟨w, hw, hwn, hwo⟩ := h
  have hsome : (db.users.find? (fun u => u.username == n && u.isOnline)).isSome := by
    rw [List.find?_isSome]
    exact ⟨w, hw, by simp [hwn, hwo]⟩
  obtain ⟨w', hw'⟩ := Option.isSome_iff_exists.mp hsome
  unfold createUser
  rw [hw']

/-- When no online user holds the username and the session is fresh,
`createUser` inserts a new row. -/
theorem createUser_insert_eq (db : DB) (n s : String) (now : Int) (fid : Nat)
    (hname : ∀ w ∈ db.users, w.username = n → w.isOnline = false)
    (hsess : ∀ w ∈ db.users, w.sessionId ≠ s) :
    createUser n s now fid db = (Except.ok fid,
      { db with users := db.users ++
          [{ id := fid, username := n, sessionId := s, isOnline := true,
             lastSeen := now }] }) := by
  have h1 : db.users.find? (fun u => u.username == n && u.isOnline) = none := by
    rw [List.find?_eq_none]
    intro x hx
    simp only [Bool.and_eq_true, beq_iff_eq, not_and]
    intro hxn
    simp [hname x hx hxn]
  have h2 : db.users.find? (fun u => u.sessionId == s) = none := by
    rw [List.find?_eq_none]
    intro x hx
    simp [hsess x hx]
  unfold createUser
  rw [h1, h2]

/-- C7: creating a user with a username held by an online user fails
with the "username taken" error; creating one with a username held only
by offline users (from a session with no existing user) succeeds and
inserts a fresh row with `isOnline = true` and the current time as
`lastSeen`. -/
theorem createUser_online_uniqueness (db1 db2 : DB) (n s : String) (now : Int)
    (fid : Nat)
    (h1 : ∃ w ∈ db1.users, w.username = n ∧ w.isOnline = true)
    (h2name : ∀ w ∈ db2.users, w.username = n → w.isOnline = false)
    (h2sess : ∀ w ∈ db2.users, w.sessionId ≠ s) :
    (createUser n s now fid db1).1 = Except.error usernameTakenError ∧
    createUser n s now fid db2 = (Except.ok fid,
      { db2 with users := db2.users ++
          [{ id := fid, username := n, sessionId := s, isOnline := true,
             lastSeen := now }] }) :=
  ⟨by rw [createUser_taken_eq db1 n s now fid h1],
   createUser_insert_eq db2 n s now fid h2name h2sess⟩

/-- Witness for C7: "alice" is online in `authDB` (creation fails);
in `offlineAliceDB` "alice" is held only by an offline user and session
`s9` is fresh (creation succeeds). -/
theorem createUser_online_uniqueness_witness :
    (createUser "alice" "s9" 2000 77 authDB).1 = Except.error usernameTakenError ∧
    createUser "alice" "s9" 2000 77 offlineAliceDB = (Except.ok 77,
      { offlineAliceDB with users := offlineAliceDB.users ++
          [{ id := 77, username := "alice", sessionId := "s9", isOnline := true,
             lastSeen := 2000 }] }) :=
  createUser_online_uniqueness authDB offlineAliceDB "alice" "s9" 2000 77
    ⟨⟨1, "alice", "s1", true, 1000⟩, by decide, by decide, by decide⟩
    (by decide) (by decide)

/-- C8 fails as stated: session "s2" already has a user (bob, id 2),
yet `createUser` throws the "username taken" error because "alice" is
held by an online user, and no row is updated. -/
theorem createUser_resume_counterexample :
    (getCurrentUser authDB "s2").isSome = true ∧
    (createUser "alice" "s2" 2000 99 authDB).1 = Except.error usernameTakenError ∧
    (createUser "alice" "s2" 2000 99 authDB).2 = authDB :=
  ⟨by decide, rfl, by decide⟩

/-- C8 (amended): for a sessionId that already has a user row,
`createUser` succeeds, patches that row's username / online flag /
`lastSeen` and returns that row's id — provided no user row with the
requested username is currently online (otherwise the username-taken
error fires first, even for a session that already has a user). -/
theorem createUser_resume (db : DB) (n s : String) (now : Int) (fid : Nat)
    (ex : User)
    (hno : ∀ w ∈ db.users, w.username = n → w.isOnline = false)
    (hsess : db.users.find? (fun u => u.sessionId == s) = some ex) :
    createUser n s now fid db = (Except.ok ex.id,
      { db with users := db.users.map (fun u =>
          if u.id == ex.id then
            { u with username := n, isOnline := true, lastSeen := now }
          else u) }) := by
  have h1 : db.users.find? (fun u => u.username == n && u.isOnline) = none := by
    rw [List.find?_eq_none]
    intro x hx
    simp only [Bool.and_eq_true, beq_iff_eq, not_and]
    intro hxn
    simp [hno x hx hxn]
  unfold createUser
  rw [h1, hsess]

/-- Witness for C8 (amended): session "s2" resumes as "carol". -/
theorem createUser_resume_witness :
    createUser "carol" "s2" 2000 99 authDB = (Except.ok 2,
      { authDB with users := authDB.users.map (fun u =>
          if u.id == 2 then
            { u with username := "carol", isOnline := true, lastSeen := 2000 }
          else u) }) :=
  createUser_resume authDB "carol" "s2" 2000 99 ⟨2, "bob", "s2", false, 500⟩
    (by decide) (by decide)

/-- C9: whenever some user row with the requested username is online —
including the caller's own row — `createUser` throws the username-taken
error before any insert or patch, leaving the users table unchanged. -/
theorem createUser_taken_atomic (db : DB) (n s : String) (now : Int) (fid : Nat)
    (h : ∃ w ∈ db.users, w.username = n ∧ w.isOnline = true) :
    (createUser n s now fid db).1 = Except.error usernameTakenError ∧
    (createUser n s now fid db).2 = db := by
  rw [createUser_taken_eq db n s now fid h]
  exact ⟨rfl, rfl⟩

/-- Witness for C9, with the online holder being the caller's own
session: alice re-requests "alice" from her own session "s1". -/
theorem createUser_taken_atomic_witness :
    (createUser "alice" "s1" 2000 99 authDB).1 = Except.error usernameTakenError ∧
    (createUser "alice" "s1" 2000 99 authDB).2 = authDB :=
  createUser_taken_atomic authDB "alice" "s1" 2000 99
    ⟨⟨1, "alice", "s1", true, 1000⟩, by decide, by decide, by decide⟩

/-- C10: when a membership row's group no longer exists, the workflow
skips the counter decrement (here: the user's only membership row, so
the groups table is untouched), still deletes the membership row, and
completes (the model is a total function — no error is possible). -/
theorem deleteUserAndData_missing_group (db : DB) (u : Nat) (mem : GroupMember)
    (hmem : mem ∈ db.groupMembers) (hmu : mem.userId = u)
    (hnog : ∀ g ∈ db.groups, g.id ≠ mem.groupId)
    (hmemnd : (db.groupMembers.map GroupMember.id).Nodup)
    (huniq : ∀ m ∈ db.groupMembers, m.userId = u → m = mem) :
    (_deleteUserAndData u db).groups = db.groups ∧
    (∀ m' ∈ (_deleteUserAndData u db).groupMembers, m'.id ≠ mem.id) := by
  have hms : db.groupMembers.filter (fun m => m.userId == u) = [mem] :=
    filter_eq_singleton_of_unique (List.Nodup.of_map _ hmemnd) hmem
      (by simp [hmu]) (fun x hx hpx => huniq x hx (by simpa using hpx))
  constructor
  · rw [deleteUserAndData_groups, purge_groups, hms]
    show stepGroups db.groups mem = db.groups
    unfold stepGroups
    have hnone : db.groups.find? (fun g => g.id == mem.groupId) = none := by
      rw [List.find?_eq_none]
      intro g hg
      simp [hnog g hg]
    rw [hnone]
  · intro m' hm'
    rw [deleteUserAndData_groupMembers, purge_groupMembers] at hm'
    rcases mem_deleteEach.mp hm' with ⟨_, hids⟩
    exact hids mem (List.mem_filter.mpr ⟨hmem, by simp [hmu]⟩)

/-- Witness for C10 on `orphanDB`: user 3's membership row 210
references the absent group 99. -/
theorem deleteUserAndData_missing_group_witness :
    (_deleteUserAndData 3 orphanDB).groups = orphanDB.groups ∧
    (∀ m' ∈ (_deleteUserAndData 3 orphanDB).groupMembers, m'.id ≠ 210) :=
  deleteUserAndData_missing_group orphanDB 3 ⟨210, 3, 99⟩
    (by decide) (by decide) (by decide) (by decide) (by decide)

end Hushgram
